import Mathlib

/-!
Verification of the Level Poker core (`src/models/models.py`, `src/models/level.py`):
the hand strength evaluator `BaseHandStrengthEvaluator.evaluate_hand`, the deck
operations (`BaseDeck.deal`/`shuffle`, `BitfieldLevelDeck.deal`/`shuffle`) and the
board dealing state machine (`BaseBoard`).

The embedding mirrors the Python source line by line: machine values are `Int`
(Python ints), fallible expressions (indexing, `min` of an empty sequence) return
`Option`, raised exceptions are explicit outcomes, and `random` effects are
parametrised by their outcome.
-/

namespace LevelPoker

/-- The four suits of `Suit` in models.py.  Sorting keys use `c.suit.value`,
the glyph string, so comparisons between suits are comparisons of the glyphs'
code points. -/
inductive Suit where
  | spades
  | hearts
  | diamonds
  | clubs
deriving DecidableEq, Repr

/-- Code point of the suit glyph (`'♠' = 9824`, `'♥' = 9829`, `'♦' = 9830`,
`'♣' = 9827`): the value Python compares when sort keys tie on rank and level. -/
def suitVal : Suit → Nat
  | .spades => 9824
  | .hearts => 9829
  | .diamonds => 9830
  | .clubs => 9827

theorem suitVal_inj : ∀ {a b : Suit}, suitVal a = suitVal b → a = b := by
  intro a b h
  cases a <;> cases b <;> first | rfl | simp [suitVal] at h

/-- `Card` of models.py with a present level (the Level-Poker decks always
assign one; `evaluate_hand` dereferences `card.level.value`, so a card without
a level is outside every behaviour the claims exercise).  `rank` and `level`
are the enum `.value` integers, 2..14. -/
structure Card where
  rank : Int
  suit : Suit
  level : Int
deriving DecidableEq, Repr

/-- The descriptor namedtuple `HandStrengthTup`: 13 fields, all defaulting to
`None`, in the order level, tier, category, group1..group5, level1..level5. -/
structure HandStrengthTup where
  level : Option Int := none
  tier : Option Int := none
  category : Option Int := none
  group1 : Option Int := none
  group2 : Option Int := none
  group3 : Option Int := none
  group4 : Option Int := none
  group5 : Option Int := none
  level1 : Option Int := none
  level2 : Option Int := none
  level3 : Option Int := none
  level4 : Option Int := none
  level5 : Option Int := none
deriving DecidableEq, Repr

/-- Python `min` over a list (left fold of binary `min` over the items, as the
builtin computes it); `none` when the sequence is empty (Python raises
`ValueError` there). -/
def listMin : List Int → Option Int
  | [] => none
  | a :: as => some (as.foldl min a)

/-- First-occurrence deduplication: the iteration order of the keys of
`collections.Counter(ranks)` (insertion order). -/
def pyDedupAux [DecidableEq α] : List α → List α → List α
  | _, [] => []
  | seen, a :: as =>
    if a ∈ seen then pyDedupAux seen as else a :: pyDedupAux (a :: seen) as

/-- Distinct elements of a list in first-occurrence order. -/
def pyDedup [DecidableEq α] (l : List α) : List α := pyDedupAux [] l

/-- `sorted(count.values(), reverse=True)` where `count = Counter(ranks)`:
the multiplicities of the distinct ranks, sorted descending. -/
def countsList (ranks : List Int) : List Nat :=
  ((pyDedup ranks).map (fun r => ranks.count r)).insertionSort (· ≥ ·)

/-- The descending sort order Python uses:
`sorted(cards, key=lambda c: (c.rank.value, c.level.value, c.suit.value), reverse=True)`
keeps `a` before `b` when `a`'s key is at least `b`'s in lexicographic order. -/
def cardGe (a b : Card) : Prop :=
  b.rank < a.rank ∨
    (b.rank = a.rank ∧
      (b.level < a.level ∨ (b.level = a.level ∧ suitVal b.suit ≤ suitVal a.suit)))

instance : DecidableRel cardGe := fun a b => by
  unfold cardGe; infer_instance

instance : IsTotal Card cardGe where
  total a b := by unfold cardGe; omega

instance : IsTrans Card cardGe where
  trans a b c hab hbc := by unfold cardGe at hab hbc ⊢; omega

instance : IsAntisymm Card cardGe where
  antisymm a b hab hba := by
    unfold cardGe at hab hba
    have hr : a.rank = b.rank := by omega
    have hl : a.level = b.level := by omega
    have hs : suitVal a.suit = suitVal b.suit := by omega
    have hsuit : a.suit = b.suit := suitVal_inj hs
    cases a; cases b; simp_all

/-- `sorted(cards, key=..., reverse=True)`: the unique non-increasing ordering
of the cards by `(rank, level, suit glyph)`. -/
def sortCards (cards : List Card) : List Card := cards.insertionSort cardGe

/-! ### The branch returns of `evaluate_hand`

One definition per `return HandStrengthTup(...)` in the source.  Optional
indexing (`four[0]`, `levels[4]`, ...) is an `Option` bind: Python raises
`IndexError`, and the claims about error-free runs never hit these binds.
Field order in the anonymous constructors is that of the namedtuple:
level, tier, category, group1..group5, level1..level5. -/

/-- Royal Flush branch: `HandStrengthTup(level=level-2, tier=4, category=4)`. -/
def royalTup (m : Int) : HandStrengthTup :=
  ⟨some (m - 2), some 4, some 4, none, none, none, none, none, none, none, none, none, none⟩

/-- Straight Flush branch: `HandStrengthTup(level=level-2, tier=3, category=4)`. -/
def sfTup (m : Int) : HandStrengthTup :=
  ⟨some (m - 2), some 3, some 4, none, none, none, none, none, none, none, none, none, none⟩

/-- Four of a Kind branch: `four` from `count.items()` (counts over the
pre-remap ranks), `kicker` filtered from the possibly wheel-remapped `ranks`. -/
def quadsTup (m : Int) (ranks0 ranks levels : List Int) : Option HandStrengthTup := do
  let four := (pyDedup ranks0).filter (fun r => ranks0.count r == 4)
  let kicker := ranks.filter (fun r => !(four.contains r))
  let f0 ← four[0]?
  let k0 ← kicker[0]?
  let l4 ← levels[4]?
  some ⟨some (m - 2), some 2, some 2, some (f0 - 2), some (k0 - 2),
    none, none, none, none, none, none, none, some (l4 - 2)⟩

/-- Full House branch. -/
def fullHouseTup (m : Int) (ranks0 levels : List Int) : Option HandStrengthTup := do
  let triple := (pyDedup ranks0).filter (fun r => ranks0.count r == 3)
  let pair := (pyDedup ranks0).filter (fun r => ranks0.count r == 2)
  let t0 ← triple[0]?
  let p0 ← pair[0]?
  let l0 ← levels[0]?
  let l3 ← levels[3]?
  let l4 ← levels[4]?
  some ⟨some (m - 2), some 2, some 1, some (t0 - 2), some (p0 - 2),
    none, none, none, some (l0 - 2), none, none, some (l3 - 2), some (l4 - 2)⟩

/-- Flush branch: `group1..5 = ranks[0..4] - 2`, no level fields. -/
def flushTup (m : Int) (ranks : List Int) : Option HandStrengthTup := do
  let r0 ← ranks[0]?
  let r1 ← ranks[1]?
  let r2 ← ranks[2]?
  let r3 ← ranks[3]?
  let r4 ← ranks[4]?
  some ⟨some (m - 2), some 1, some 3, some (r0 - 2), some (r1 - 2), some (r2 - 2),
    some (r3 - 2), some (r4 - 2), none, none, none, none, none⟩

/-- Straight branch: `group1 = ranks[0] - 2` (post-remap), `level1..5` taken
from the level sequence in its pre-remap sorted order. -/
def straightTup (m : Int) (ranks levels : List Int) : Option HandStrengthTup := do
  let r0 ← ranks[0]?
  let l0 ← levels[0]?
  let l1 ← levels[1]?
  let l2 ← levels[2]?
  let l3 ← levels[3]?
  let l4 ← levels[4]?
  some ⟨some (m - 2), some 1, some 2, some (r0 - 2), none, none, none, none,
    some (l0 - 2), some (l1 - 2), some (l2 - 2), some (l3 - 2), some (l4 - 2)⟩

/-- Three of a Kind branch. -/
def tripsTup (m : Int) (ranks0 ranks levels : List Int) : Option HandStrengthTup := do
  let triple := (pyDedup ranks0).filter (fun r => ranks0.count r == 3)
  let kickers := ranks.filter (fun r => !(triple.contains r))
  let t0 ← triple[0]?
  let k0 ← kickers[0]?
  let k1 ← kickers[1]?
  let l0 ← levels[0]?
  let l3 ← levels[3]?
  let l4 ← levels[4]?
  some ⟨some (m - 2), some 1, some 0, some (t0 - 2), some (k0 - 2), some (k1 - 2),
    none, none, some (l0 - 2), none, none, some (l3 - 2), some (l4 - 2)⟩

/-- Two Pair branch: `pairs = sorted([...], reverse=True)`. -/
def twoPairTup (m : Int) (ranks0 ranks levels : List Int) : Option HandStrengthTup := do
  let pairs := ((pyDedup ranks0).filter (fun r => ranks0.count r == 2)).insertionSort (· ≥ ·)
  let kicker := ranks.filter (fun r => !(pairs.contains r))
  let p0 ← pairs[0]?
  let p1 ← pairs[1]?
  let k0 ← kicker[0]?
  let l0 ← levels[0]?
  let l1 ← levels[1]?
  let l2 ← levels[2]?
  let l3 ← levels[3]?
  let l4 ← levels[4]?
  some ⟨some (m - 2), some 0, some 2, some (p0 - 2), some (p1 - 2), some (k0 - 2),
    none, none, some (l0 - 2), some (l1 - 2), some (l2 - 2), some (l3 - 2), some (l4 - 2)⟩

/-- One Pair branch. -/
def onePairTup (m : Int) (ranks0 ranks levels : List Int) : Option HandStrengthTup := do
  let pair := (pyDedup ranks0).filter (fun r => ranks0.count r == 2)
  let kickers := ranks.filter (fun r => !(pair.contains r))
  let p0 ← pair[0]?
  let k0 ← kickers[0]?
  let k1 ← kickers[1]?
  let k2 ← kickers[2]?
  let l0 ← levels[0]?
  let l1 ← levels[1]?
  let l2 ← levels[2]?
  let l3 ← levels[3]?
  let l4 ← levels[4]?
  some ⟨some (m - 2), some 0, some 1, some (p0 - 2), some (k0 - 2), some (k1 - 2),
    some (k2 - 2), none, some (l0 - 2), some (l1 - 2), some (l2 - 2), some (l3 - 2),
    some (l4 - 2)⟩

/-- High Card branch (the final `return`). -/
def highCardTup (m : Int) (ranks levels : List Int) : Option HandStrengthTup := do
  let r0 ← ranks[0]?
  let r1 ← ranks[1]?
  let r2 ← ranks[2]?
  let r3 ← ranks[3]?
  let r4 ← ranks[4]?
  let l0 ← levels[0]?
  let l1 ← levels[1]?
  let l2 ← levels[2]?
  let l3 ← levels[3]?
  let l4 ← levels[4]?
  some ⟨some (m - 2), some 0, some 0, some (r0 - 2), some (r1 - 2), some (r2 - 2),
    some (r3 - 2), some (r4 - 2), some (l0 - 2), some (l1 - 2), some (l2 - 2),
    some (l3 - 2), some (l4 - 2)⟩

/-- The body of `evaluate_hand` after the `min` and the sort: `m` is the raw
minimum level, `cs` the sorted card list.  `ranks0` is the rank sequence as
sorted; the wheel check replaces the *rank* list by `[5,4,3,2,1]` while the
level list keeps its original (ace-first) positional order, exactly as the
source does.  `count` is built from the pre-remap ranks, branch comprehensions
over `ranks` use the post-remap list. -/
def evalSorted (m : Int) (cs : List Card) : Option HandStrengthTup :=
  let ranks0 := cs.map Card.rank
  let levels := cs.map Card.level
  let suits := cs.map Card.suit
  let counts := countsList ranks0
  let is_flush := (pyDedup suits).length == 1
  match ranks0.head? with
  | none => none
  | some r0 =>
    let is_straight0 := ranks0 == [r0, r0 - 1, r0 - 2, r0 - 3, r0 - 4]
    let is_straight := if ranks0 == [14, 5, 4, 3, 2] then true else is_straight0
    let ranks := if ranks0 == [14, 5, 4, 3, 2] then ([5, 4, 3, 2, 1] : List Int) else ranks0
    if is_flush && is_straight then
      if ranks.head? == some 14 then some (royalTup m) else some (sfTup m)
    else if counts == [4, 1] then quadsTup m ranks0 ranks levels
    else if counts == [3, 2] then fullHouseTup m ranks0 levels
    else if is_flush then flushTup m ranks
    else if is_straight then straightTup m ranks levels
    else if counts == [3, 1, 1] then tripsTup m ranks0 ranks levels
    else if counts == [2, 2, 1] then twoPairTup m ranks0 ranks levels
    else if counts == [2, 1, 1, 1] then onePairTup m ranks0 ranks levels
    else highCardTup m ranks levels

/-- `BaseHandStrengthEvaluator.evaluate_hand`: minimum level of the input
cards (in input order; `none` when the input is empty and Python's `min`
raises), then the canonical descending sort, then the category cascade. -/
def evaluate_hand (cards : List Card) : Option HandStrengthTup :=
  match listMin (cards.map Card.level) with
  | none => none
  | some m => evalSorted m (sortCards cards)

/-! ### Descriptor comparison

`HandStrengthTup` is a namedtuple, so `>` between two descriptors is Python
tuple comparison: scan left to right, skip positions whose entries are equal
(`None == None` included), decide at the first unequal position — and raise
`TypeError` (`none` here) when one side is `None` and the other an int. -/

/-- The namedtuple's entries, most significant first. -/
def tupFields (d : HandStrengthTup) : List (Option Int) :=
  [d.level, d.tier, d.category, d.group1, d.group2, d.group3, d.group4, d.group5,
   d.level1, d.level2, d.level3, d.level4, d.level5]

/-- Python `tuple.__gt__` on optional-int entries of equal length:
`some true`/`some false` when the comparison completes, `none` when it raises
`TypeError` comparing `None` with an int. -/
def pyGtList : List (Option Int) → List (Option Int) → Option Bool
  | [], [] => some false
  | [], _ :: _ => some false
  | _ :: _, [] => some true
  | x :: xs, y :: ys =>
    match x, y with
    | none, none => pyGtList xs ys
    | some a, some b => if a = b then pyGtList xs ys else some (decide (b < a))
    | _, _ => none

/-- `d > e` between two descriptors, as Python evaluates it. -/
def pyGtTup (d e : HandStrengthTup) : Option Bool :=
  pyGtList (tupFields d) (tupFields e)

/-! ### `BitfieldLevelDeck` (src/models/level.py)

`_cards` is the full 52-card list (bitfield-encoded ints) and `_index` the
draw cursor; `deal` slices and `shuffle` permutes the *whole* list —
dealt cards included — and resets the cursor. -/

structure BitfieldLevelDeck where
  _cards : List Nat
  _index : Nat
deriving DecidableEq, Repr

/-- `deal(n)`: `i = self._index; self._index += n; return self._cards[i:i+n]`.
The Python slice silently clamps, so the result can be shorter than `n`. -/
def bfDeal (n : Nat) (d : BitfieldLevelDeck) : List Nat × BitfieldLevelDeck :=
  ((d._cards.drop d._index).take n, { d with _index := d._index + n })

/-- `shuffle()`: `random.shuffle(self._cards); self._index = 0`.  The in-place
`random.shuffle` is modelled by its outcome `newOrder`, a permutation of the
whole `_cards` list (for the theorems below the identity permutation, a
possible outcome, is used); the cursor resets to 0. -/
def bfShuffleWith (newOrder : List Nat) (_d : BitfieldLevelDeck) : BitfieldLevelDeck :=
  { _cards := newOrder, _index := 0 }

/-- `__len__`: `len(self._cards) - self._index`, as Python's unbounded
integer subtraction computes it. -/
def bfRemaining (d : BitfieldLevelDeck) : Int :=
  (d._cards.length : Int) - (d._index : Int)

/-- A freshly generated deck: `_generate_deck` builds a list of 52 encoded
cards (one per (rank, suit) pair with a sampled level) and `_index` starts
at 0.  The bitfield values themselves never matter to the cursor semantics,
so the fresh deck is modelled with 52 distinct encodings. -/
def bfFresh : BitfieldLevelDeck :=
  { _cards := List.range 52, _index := 0 }

/-! ### `BaseDeck` and `BaseBoard` (src/models/models.py)

`BaseDeck.deal` pops `n` cards off the *end* of the list; a pop from an empty
list raises `IndexError` (after having consumed everything popped so far, so
the deck is left empty).  `BaseBoard` holds the accumulated community cards,
a reference to its deck, and the three phase flags; failed order checks raise
`ValueError` before any mutation. -/

/-- `[self.cards.pop() for _ in range(n)]`: `(some dealt, rest)` on success,
`(none, [])` when a pop hits the empty list (`IndexError`; every available
card was already popped off). -/
def baseDeal (n : Nat) (cards : List Card) : Option (List Card) × List Card :=
  match n with
  | 0 => (some [], cards)
  | k + 1 =>
    match cards.getLast? with
    | none => (none, [])
    | some c =>
      match baseDeal k cards.dropLast with
      | (some ds, rest) => (some (c :: ds), rest)
      | (none, rest) => (none, rest)

/-- Python return values the board operations can produce. -/
inductive PyVal where
  | vNone
  | vNotImplemented
deriving DecidableEq, Repr

/-- Exceptions the board operations can raise: `ValueError` for an
out-of-order deal, `IndexError` for a pop from an exhausted deck. -/
inductive PyErr where
  | valueError
  | indexError
deriving DecidableEq, Repr

/-- A call's outcome: a normal return carrying a value, or a raised exception. -/
inductive PyOutcome where
  | ret (v : PyVal)
  | exn (e : PyErr)
deriving DecidableEq, Repr

/-- `BaseBoard`: community cards, the referenced deck's card list, and the
three phase flags. -/
structure BoardState where
  cards : List Card
  deck : List Card
  flop_was_dealt : Bool
  turn_was_dealt : Bool
  river_was_dealt : Bool
deriving DecidableEq, Repr

/-- `BaseBoard.__init__(deck)`. -/
def initBoard (deck : List Card) : BoardState :=
  { cards := [], deck := deck, flop_was_dealt := false, turn_was_dealt := false,
    river_was_dealt := false }

/-- `deal_flop`: raises `ValueError` if turn or river was dealt (the flop flag
itself is not checked); otherwise extends the board with 3 dealt cards and
sets the flop flag. -/
def deal_flop (b : BoardState) : BoardState × PyOutcome :=
  if b.turn_was_dealt || b.river_was_dealt then (b, .exn .valueError)
  else
    match baseDeal 3 b.deck with
    | (none, rest) => ({ b with deck := rest }, .exn .indexError)
    | (some got, rest) =>
      ({ b with cards := b.cards ++ got, deck := rest, flop_was_dealt := true },
        .ret .vNone)

/-- `deal_turn`: raises if the flop was not dealt or the river was (the turn
flag itself is not checked); otherwise deals 1 card and sets the turn flag. -/
def deal_turn (b : BoardState) : BoardState × PyOutcome :=
  if !b.flop_was_dealt then (b, .exn .valueError)
  else if b.river_was_dealt then (b, .exn .valueError)
  else
    match baseDeal 1 b.deck with
    | (none, rest) => ({ b with deck := rest }, .exn .indexError)
    | (some got, rest) =>
      ({ b with cards := b.cards ++ got, deck := rest, turn_was_dealt := true },
        .ret .vNone)

/-- `deal_river`: raises if flop or turn was not dealt (the river flag itself
is not checked); otherwise deals 1 card and sets the river flag. -/
def deal_river (b : BoardState) : BoardState × PyOutcome :=
  if !b.flop_was_dealt || !b.turn_was_dealt then (b, .exn .valueError)
  else
    match baseDeal 1 b.deck with
    | (none, rest) => ({ b with deck := rest }, .exn .indexError)
    | (some got, rest) =>
      ({ b with cards := b.cards ++ got, deck := rest, river_was_dealt := true },
        .ret .vNone)

/-- One stage of `run_it_once` (`if not self._x_was_dealt: self.deal_x()`):
skip when the phase flag is already set on the current state, run the deal
otherwise; an exception raised earlier short-circuits the rest. -/
def runStep (flag : BoardState → Bool) (f : BoardState → BoardState × PyOutcome) :
    BoardState × PyOutcome → BoardState × PyOutcome
  | (b, .exn e) => (b, .exn e)
  | (b, .ret v) => if !(flag b) then f b else (b, .ret v)

/-- `run_it_once`: deal whichever of flop/turn/river is still undealt, in
order; a raised exception propagates immediately. -/
def run_it_once (b : BoardState) : BoardState × PyOutcome :=
  runStep (fun s => s.river_was_dealt) deal_river
    (runStep (fun s => s.turn_was_dealt) deal_turn
      (runStep (fun s => s.flop_was_dealt) deal_flop (b, .ret .vNone)))

/-- `run_it_twice`: `return NotImplemented` — a normal return of the
`NotImplemented` sentinel, touching nothing. -/
def run_it_twice (b : BoardState) : BoardState × PyOutcome :=
  (b, .ret .vNotImplemented)

/-- `run_it_thrice` as written in the source: a body that is just
`return NotImplemented` (the def lacks a `self` parameter, so an *instance*
invocation would in fact fail with a `TypeError` before the body runs). -/
def run_it_thrice : PyOutcome :=
  .ret .vNotImplemented

/-- The four board operations of claim C6. -/
inductive BOp where
  | flop
  | turn
  | river
  | once
deriving DecidableEq, Repr

/-- The state a board is left in by an operation, whether it returned
normally or raised. -/
def applyOp : BOp → BoardState → BoardState
  | .flop, b => (deal_flop b).1
  | .turn, b => (deal_turn b).1
  | .river, b => (deal_river b).1
  | .once, b => (run_it_once b).1

/-- Board states reachable from a fresh board over some deck by any sequence
of `deal_flop` / `deal_turn` / `deal_river` / `run_it_once` calls, each call
leaving the state it leaves (failed calls leave the board fields unchanged). -/
inductive Reached : BoardState → Prop where
  | init (deck : List Card) : Reached (initBoard deck)
  | step (b : BoardState) (op : BOp) : Reached b → Reached (applyOp op b)

/-! ### Permutation invariance of the evaluator -/

theorem foldl_min_perm {l₁ l₂ : List Int} (h : l₁.Perm l₂) :
    ∀ a : Int, l₁.foldl min a = l₂.foldl min a := by
  induction h with
  | nil => intro a; rfl
  | cons x _ ih => intro a; simpa using ih (min a x)
  | swap x y l => intro a; simp only [List.foldl]; rw [min_right_comm]
  | trans _ _ ih1 ih2 => intro a; exact (ih1 a).trans (ih2 a)

theorem listMin_perm {l₁ l₂ : List Int} (h : l₁.Perm l₂) : listMin l₁ = listMin l₂ := by
  induction h with
  | nil => rfl
  | cons x h ih => simp only [listMin]; rw [foldl_min_perm h]
  | swap x y l =>
    simp only [listMin, List.foldl]
    rw [min_comm]
  | trans _ _ ih1 ih2 => exact ih1.trans ih2

theorem sortCards_eq_of_perm {l₁ l₂ : List Card} (h : l₁.Perm l₂) :
    sortCards l₁ = sortCards l₂ :=
  List.eq_of_perm_of_sorted
    (((List.perm_insertionSort cardGe l₁).trans h).trans
      (List.perm_insertionSort cardGe l₂).symm)
    (List.sorted_insertionSort cardGe l₁) (List.sorted_insertionSort cardGe l₂)

/-- C9: For every set of 5 cards, `evaluate_hand` applied to any permutation
(ordering) of those 5 cards returns a descriptor identical in every field to
the one returned for any other permutation.  (Proved for all card lists: the
minimum is order-free and the sort is the unique non-increasing reordering.) -/
theorem evaluate_hand_perm_invariant (l₁ l₂ : List Card) (h : l₁.Perm l₂) :
    evaluate_hand l₁ = evaluate_hand l₂ := by
  unfold evaluate_hand
  rw [listMin_perm (h.map Card.level), sortCards_eq_of_perm h]

/-- Witness for C9 at a concrete 5-card hand and a concrete reordering. -/
theorem evaluate_hand_perm_invariant_witness :
    ([⟨14, .spades, 3⟩, ⟨13, .clubs, 2⟩, ⟨9, .clubs, 2⟩, ⟨7, .diamonds, 4⟩,
        ⟨2, .hearts, 2⟩] : List Card).Perm
      [⟨2, .hearts, 2⟩, ⟨9, .clubs, 2⟩, ⟨14, .spades, 3⟩, ⟨7, .diamonds, 4⟩,
        ⟨13, .clubs, 2⟩] ∧
    evaluate_hand [⟨14, .spades, 3⟩, ⟨13, .clubs, 2⟩, ⟨9, .clubs, 2⟩, ⟨7, .diamonds, 4⟩,
        ⟨2, .hearts, 2⟩] =
      evaluate_hand [⟨2, .hearts, 2⟩, ⟨9, .clubs, 2⟩, ⟨14, .spades, 3⟩, ⟨7, .diamonds, 4⟩,
        ⟨13, .clubs, 2⟩] :=
  ⟨by decide, evaluate_hand_perm_invariant _ _ (by decide)⟩

/-! ### Field shape of returned descriptors -/

/-- Which of the optional kicker fields are present, `group1..5` then
`level1..5`. -/
def presence (d : HandStrengthTup) : List Bool :=
  [d.group1.isSome, d.group2.isSome, d.group3.isSome, d.group4.isSome, d.group5.isSome,
   d.level1.isSome, d.level2.isSome, d.level3.isSome, d.level4.isSome, d.level5.isSome]

/-- The field shape each `(tier, category)` branch of the source emits. -/
def shapeOf (t c : Int) : List Bool :=
  if t = 4 ∧ c = 4 then
    [false, false, false, false, false, false, false, false, false, false]
  else if t = 3 ∧ c = 4 then
    [false, false, false, false, false, false, false, false, false, false]
  else if t = 2 ∧ c = 2 then
    [true, true, false, false, false, false, false, false, false, true]
  else if t = 2 ∧ c = 1 then
    [true, true, false, false, false, true, false, false, true, true]
  else if t = 1 ∧ c = 3 then
    [true, true, true, true, true, false, false, false, false, false]
  else if t = 1 ∧ c = 2 then
    [true, false, false, false, false, true, true, true, true, true]
  else if t = 1 ∧ c = 0 then
    [true, true, true, false, false, true, false, false, true, true]
  else if t = 0 ∧ c = 2 then
    [true, true, true, false, false, true, true, true, true, true]
  else if t = 0 ∧ c = 1 then
    [true, true, true, true, false, true, true, true, true, true]
  else
    [true, true, true, true, true, true, true, true, true, true]

/-- The conclusion every branch return satisfies: level/tier/category are
present and the optional-field shape matches the branch's `(tier, category)`. -/
def fieldsOK (m : Int) (d : HandStrengthTup) : Prop :=
  d.level = some (m - 2) ∧ ∃ t c, d.tier = some t ∧ d.category = some c ∧
    presence d = shapeOf t c

theorem quadsTup_fields {m : Int} {a b c : List Int} {d : HandStrengthTup}
    (h : quadsTup m a b c = some d) : fieldsOK m d := by
  unfold quadsTup at h
  simp only [bind, Option.bind_eq_some] at h
  obtain ⟨f0, -, k0, -, l4, -, h⟩ := h
  injection h with h
  subst h
  exact ⟨rfl, 2, 2, rfl, rfl, by rfl⟩

theorem fullHouseTup_fields {m : Int} {a c : List Int} {d : HandStrengthTup}
    (h : fullHouseTup m a c = some d) : fieldsOK m d := by
  unfold fullHouseTup at h
  simp only [bind, Option.bind_eq_some] at h
  obtain ⟨t0, -, p0, -, l0, -, l3, -, l4, -, h⟩ := h
  injection h with h
  subst h
  exact ⟨rfl, 2, 1, rfl, rfl, by rfl⟩

theorem flushTup_fields {m : Int} {a : List Int} {d : HandStrengthTup}
    (h : flushTup m a = some d) : fieldsOK m d := by
  unfold flushTup at h
  simp only [bind, Option.bind_eq_some] at h
  obtain ⟨r0, -, r1, -, r2, -, r3, -, r4, -, h⟩ := h
  injection h with h
  subst h
  exact ⟨rfl, 1, 3, rfl, rfl, by rfl⟩

theorem straightTup_fields {m : Int} {a c : List Int} {d : HandStrengthTup}
    (h : straightTup m a c = some d) : fieldsOK m d := by
  unfold straightTup at h
  simp only [bind, Option.bind_eq_some] at h
  obtain ⟨r0, -, l0, -, l1, -, l2, -, l3, -, l4, -, h⟩ := h
  injection h with h
  subst h
  exact ⟨rfl, 1, 2, rfl, rfl, by rfl⟩

theorem tripsTup_fields {m : Int} {a b c : List Int} {d : HandStrengthTup}
    (h : tripsTup m a b c = some d) : fieldsOK m d := by
  unfold tripsTup at h
  simp only [bind, Option.bind_eq_some] at h
  obtain ⟨t0, -, k0, -, k1, -, l0, -, l3, -, l4, -, h⟩ := h
  injection h with h
  subst h
  exact ⟨rfl, 1, 0, rfl, rfl, by rfl⟩

theorem twoPairTup_fields {m : Int} {a b c : List Int} {d : HandStrengthTup}
    (h : twoPairTup m a b c = some d) : fieldsOK m d := by
  unfold twoPairTup at h
  simp only [bind, Option.bind_eq_some] at h
  obtain ⟨p0, -, p1, -, k0, -, l0, -, l1, -, l2, -, l3, -, l4, -, h⟩ := h
  injection h with h
  subst h
  exact ⟨rfl, 0, 2, rfl, rfl, by rfl⟩

theorem onePairTup_fields {m : Int} {a b c : List Int} {d : HandStrengthTup}
    (h : onePairTup m a b c = some d) : fieldsOK m d := by
  unfold onePairTup at h
  simp only [bind, Option.bind_eq_some] at h
  obtain ⟨p0, -, k0, -, k1, -, k2, -, l0, -, l1, -, l2, -, l3, -, l4, -, h⟩ := h
  injection h with h
  subst h
  exact ⟨rfl, 0, 1, rfl, rfl, by rfl⟩

theorem highCardTup_fields {m : Int} {a c : List Int} {d : HandStrengthTup}
    (h : highCardTup m a c = some d) : fieldsOK m d := by
  unfold highCardTup at h
  simp only [bind, Option.bind_eq_some] at h
  obtain ⟨r0, -, r1, -, r2, -, r3, -, r4, -, l0, -, l1, -, l2, -, l3, -, l4, -, h⟩ := h
  injection h with h
  subst h
  exact ⟨rfl, 0, 0, rfl, rfl, by rfl⟩

theorem royalTup_fields {m : Int} {d : HandStrengthTup}
    (h : some (royalTup m) = some d) : fieldsOK m d := by
  injection h with h
  subst h
  exact ⟨rfl, 4, 4, rfl, rfl, by rfl⟩

theorem sfTup_fields {m : Int} {d : HandStrengthTup}
    (h : some (sfTup m) = some d) : fieldsOK m d := by
  injection h with h
  subst h
  exact ⟨rfl, 3, 4, rfl, rfl, by rfl⟩

set_option maxHeartbeats 2000000 in
/-- Every descriptor `evalSorted` returns carries `level`, `tier` and
`category`, and its optional-field shape is the one its `(tier, category)`
branch emits. -/
theorem evalSorted_fields {m : Int} {cs : List Card} {d : HandStrengthTup}
    (h : evalSorted m cs = some d) : fieldsOK m d := by
  simp only [evalSorted] at h
  repeat' split at h
  all_goals
    first
    | exact royalTup_fields h
    | exact sfTup_fields h
    | exact quadsTup_fields h
    | exact fullHouseTup_fields h
    | exact flushTup_fields h
    | exact straightTup_fields h
    | exact tripsTup_fields h
    | exact twoPairTup_fields h
    | exact onePairTup_fields h
    | exact highCardTup_fields h
    | exact Option.noConfusion h

/-- Whenever `evaluate_hand` returns a descriptor, the descriptor satisfies
`fieldsOK` for the minimum level the run computed. -/
theorem evaluate_hand_fields {cards : List Card} {d : HandStrengthTup}
    (h : evaluate_hand cards = some d) : ∃ m : Int, fieldsOK m d := by
  unfold evaluate_hand at h
  split at h
  · exact Option.noConfusion h
  · exact ⟨_, evalSorted_fields h⟩

/-- C10: For every 5-card input on which `evaluate_hand` returns, the
descriptor's `level`, `tier` and `category` fields are present, and which of
the `group1..5` / `level1..5` fields are present is determined solely by the
matched `(tier, category)` branch. -/
theorem descriptor_fields_determined (cards : List Card) (d : HandStrengthTup)
    (h5 : cards.length = 5) (h : evaluate_hand cards = some d) :
    d.level.isSome = true ∧ d.tier.isSome = true ∧ d.category.isSome = true ∧
      ∃ t c, d.tier = some t ∧ d.category = some c ∧ presence d = shapeOf t c := by
  obtain ⟨m, hl, t, c, ht, hc, hp⟩ := evaluate_hand_fields h
  exact ⟨by rw [hl]; rfl, by rw [ht]; rfl, by rw [hc]; rfl, t, c, ht, hc, hp⟩

/-- High-card hand used as the C10 witness input. -/
def wHand10 : List Card :=
  [⟨14, .spades, 3⟩, ⟨13, .clubs, 2⟩, ⟨9, .clubs, 2⟩, ⟨7, .diamonds, 4⟩, ⟨2, .hearts, 2⟩]

/-- The descriptor the source computes for `wHand10`. -/
def wDesc10 : HandStrengthTup :=
  ⟨some 0, some 0, some 0, some 12, some 11, some 7, some 5, some 0,
    some 1, some 0, some 0, some 2, some 0⟩

/-- Witness for C10 at a concrete high-card hand. -/
theorem descriptor_fields_determined_witness :
    wHand10.length = 5 ∧
      (wDesc10.level.isSome = true ∧ wDesc10.tier.isSome = true ∧
        wDesc10.category.isSome = true ∧
        ∃ t c, wDesc10.tier = some t ∧ wDesc10.category = some c ∧
          presence wDesc10 = shapeOf t c) :=
  ⟨by decide, descriptor_fields_determined wHand10 wDesc10 (by decide) (by decide)⟩

/-! ### Straight flush versus four of a kind (C7) -/

/-- A 9-high straight flush whose five cards all have level 2. -/
def sfHandC7 : List Card :=
  [⟨9, .spades, 2⟩, ⟨8, .spades, 2⟩, ⟨7, .spades, 2⟩, ⟨6, .spades, 2⟩, ⟨5, .spades, 2⟩]

/-- The straight-flush descriptor of `sfHandC7`: overall hand level 0. -/
def sfDescC7 : HandStrengthTup :=
  ⟨some 0, some 3, some 4, none, none, none, none, none, none, none, none, none, none⟩

/-- Four aces, every card at level 14, so the overall hand level is 12. -/
def quadsHandC7 : List Card :=
  [⟨14, .spades, 14⟩, ⟨14, .hearts, 14⟩, ⟨14, .diamonds, 14⟩, ⟨14, .clubs, 14⟩,
    ⟨13, .spades, 14⟩]

/-- The four-of-a-kind descriptor of `quadsHandC7`: overall hand level 12. -/
def quadsDescC7 : HandStrengthTup :=
  ⟨some 12, some 2, some 2, some 12, some 11, none, none, none, none, none, none,
    none, some 12⟩

/-- C7 counterexample: a straight flush whose hand level is lower than the
four-of-a-kind's does NOT compare greater — the descriptor's most significant
field is the overall `level`, ahead of tier and category. -/
theorem sf_not_always_above_quads :
    evaluate_hand sfHandC7 = some sfDescC7 ∧
    evaluate_hand quadsHandC7 = some quadsDescC7 ∧
    pyGtTup sfDescC7 quadsDescC7 = some false := by
  refine ⟨by decide, by decide, by decide⟩

/-- C7 amended: for two evaluated hands of EQUAL overall hand level, a
straight-flush descriptor (tier 3, or 4 for the royal variant, category 4)
compares lexicographically greater than a four-of-a-kind descriptor (tier 2,
category 2), regardless of all group and level1..5 fields. -/
theorem sf_above_quads_at_equal_level (a b : List Card) (dA dB : HandStrengthTup)
    (ha : evaluate_hand a = some dA) (hb : evaluate_hand b = some dB)
    (hta : dA.tier = some 3 ∨ dA.tier = some 4) (hca : dA.category = some 4)
    (htb : dB.tier = some 2) (hcb : dB.category = some 2)
    (hlev : dA.level = dB.level) :
    pyGtTup dA dB = some true := by
  obtain ⟨m, hl, -⟩ := evaluate_hand_fields ha
  have hbl : dB.level = some (m - 2) := hlev ▸ hl
  rcases hta with hta | hta <;>
    simp [pyGtTup, tupFields, pyGtList, hl, hbl, hta, htb]

/-- Four kings, every card at level 2: overall hand level 0, equal to
`sfHandC7`'s. -/
def quadsHandC7b : List Card :=
  [⟨13, .spades, 2⟩, ⟨13, .hearts, 2⟩, ⟨13, .diamonds, 2⟩, ⟨13, .clubs, 2⟩,
    ⟨12, .spades, 2⟩]

/-- The descriptor of `quadsHandC7b`. -/
def quadsDescC7b : HandStrengthTup :=
  ⟨some 0, some 2, some 2, some 11, some 10, none, none, none, none, none, none,
    none, some 0⟩

/-- Witness for the amended C7 at concrete equal-level hands. -/
theorem sf_above_quads_at_equal_level_witness :
    pyGtTup sfDescC7 quadsDescC7b = some true :=
  sf_above_quads_at_equal_level sfHandC7 quadsHandC7b sfDescC7 quadsDescC7b
    (by decide) (by decide) (Or.inl (by decide)) (by decide) (by decide) (by decide)
    (by decide)

/-! ### Board dealing preconditions (C2, C6) -/

/-- A deck with enough cards can always serve `n` pops. -/
theorem baseDeal_isSome (n : Nat) :
    ∀ {cards : List Card}, n ≤ cards.length →
      ∃ ds rest, baseDeal n cards = (some ds, rest) := by
  induction n with
  | zero => intro cards _; exact ⟨[], cards, rfl⟩
  | succ k ih =>
    intro cards h
    obtain ⟨c, hc⟩ : ∃ c, cards.getLast? = some c := by
      cases hx : cards.getLast? with
      | some c => exact ⟨c, rfl⟩
      | none =>
        rw [List.getLast?_eq_none_iff] at hx
        subst hx
        simp at h
    have hlen : k ≤ cards.dropLast.length := by
      rw [List.length_dropLast]; omega
    obtain ⟨ds, rest, hds⟩ := ih hlen
    exact ⟨c :: ds, rest, by simp [baseDeal, hc, hds]⟩

/-- C2, amended: each deal succeeds exactly when the flags the source checks
allow it — `deal_flop` whenever neither turn nor river has been dealt (the
flop flag itself is never checked, so a second flop deal also succeeds),
`deal_turn` whenever the flop has been dealt and the river has not, and
`deal_river` whenever flop and turn have been dealt — and every out-of-order
call raises `ValueError` (the `InvalidDealOrder` condition) leaving the whole
board state unchanged. -/
theorem deal_preconditions (b : BoardState) (h3 : 3 ≤ b.deck.length) :
    ((deal_flop b).2 = .ret .vNone ↔
      (b.turn_was_dealt = false ∧ b.river_was_dealt = false)) ∧
    ((deal_turn b).2 = .ret .vNone ↔
      (b.flop_was_dealt = true ∧ b.river_was_dealt = false)) ∧
    ((deal_river b).2 = .ret .vNone ↔
      (b.flop_was_dealt = true ∧ b.turn_was_dealt = true)) ∧
    ((b.turn_was_dealt = true ∨ b.river_was_dealt = true) →
      deal_flop b = (b, .exn .valueError)) ∧
    ((b.flop_was_dealt = false ∨ b.river_was_dealt = true) →
      deal_turn b = (b, .exn .valueError)) ∧
    ((b.flop_was_dealt = false ∨ b.turn_was_dealt = false) →
      deal_river b = (b, .exn .valueError)) := by
  obtain ⟨d3, r3, hd3⟩ := baseDeal_isSome 3 h3
  obtain ⟨d1, r1, hd1⟩ := baseDeal_isSome 1 (show 1 ≤ b.deck.length by omega)
  cases hf : b.flop_was_dealt <;> cases ht : b.turn_was_dealt <;>
    cases hr : b.river_was_dealt <;>
    simp [deal_flop, deal_turn, deal_river, hf, ht, hr, hd3, hd1]

/-- An 8-card deck (2♠..9♠, all level 2) backing the concrete board runs. -/
def demoDeck : List Card :=
  [⟨2, .spades, 2⟩, ⟨3, .spades, 2⟩, ⟨4, .spades, 2⟩, ⟨5, .spades, 2⟩,
    ⟨6, .spades, 2⟩, ⟨7, .spades, 2⟩, ⟨8, .spades, 2⟩, ⟨9, .spades, 2⟩]

/-- C2 counterexample: after a successful `deal_flop` the board is no longer
in the Empty state, yet a second `deal_flop` call still returns normally —
`deal_flop` does not succeed *only* from Empty. -/
theorem deal_flop_succeeds_twice :
    (deal_flop (initBoard demoDeck)).2 = .ret .vNone ∧
    (deal_flop (initBoard demoDeck)).1.flop_was_dealt = true ∧
    (deal_flop ((deal_flop (initBoard demoDeck)).1)).2 = .ret .vNone := by
  decide

/-- Witness for the amended C2 on a fresh board over `demoDeck`. -/
theorem deal_preconditions_witness :
    (3 ≤ (initBoard demoDeck).deck.length) ∧
      ((deal_flop (initBoard demoDeck)).2 = .ret .vNone ↔
        ((initBoard demoDeck).turn_was_dealt = false ∧
          (initBoard demoDeck).river_was_dealt = false)) :=
  ⟨by decide, (deal_preconditions (initBoard demoDeck) (by decide)).1⟩

/-! ### Flag monotonicity and order (C6) -/

/-- The dealt-order invariant on the phase flags. -/
def FlagOrder (s : BoardState) : Prop :=
  (s.turn_was_dealt = true → s.flop_was_dealt = true) ∧
  (s.river_was_dealt = true → s.flop_was_dealt = true ∧ s.turn_was_dealt = true)

/-- What one board call guarantees about its resulting state: no flag is ever
cleared, and the dealt-order invariant is preserved. -/
def Facts (a c : BoardState) : Prop :=
  (a.flop_was_dealt = true → c.flop_was_dealt = true) ∧
  (a.turn_was_dealt = true → c.turn_was_dealt = true) ∧
  (a.river_was_dealt = true → c.river_was_dealt = true) ∧
  (FlagOrder a → FlagOrder c)

theorem facts_rfl (b : BoardState) : Facts b b := ⟨id, id, id, id⟩

theorem facts_trans {a b c : BoardState} (h1 : Facts a b) (h2 : Facts b c) :
    Facts a c :=
  ⟨fun h => h2.1 (h1.1 h), fun h => h2.2.1 (h1.2.1 h),
    fun h => h2.2.2.1 (h1.2.2.1 h), fun h => h2.2.2.2 (h1.2.2.2 h)⟩

theorem deal_flop_facts (b : BoardState) : Facts b (deal_flop b).1 := by
  unfold deal_flop Facts FlagOrder
  split
  · simp
  · rcases h3 : baseDeal 3 b.deck with ⟨og, rest⟩
    rcases og <;> simp_all

theorem deal_turn_facts (b : BoardState) : Facts b (deal_turn b).1 := by
  unfold deal_turn Facts FlagOrder
  split
  · simp
  · split
    · simp
    · rcases h1 : baseDeal 1 b.deck with ⟨og, rest⟩
      rcases og <;> simp_all

theorem deal_river_facts (b : BoardState) : Facts b (deal_river b).1 := by
  unfold deal_river Facts FlagOrder
  split
  · simp
  · rcases h1 : baseDeal 1 b.deck with ⟨og, rest⟩
    rcases og <;> simp_all

theorem runStep_facts (flag : BoardState → Bool)
    (f : BoardState → BoardState × PyOutcome) (hf : ∀ b, Facts b (f b).1)
    (s : BoardState × PyOutcome) : Facts s.1 (runStep flag f s).1 := by
  rcases s with ⟨b, v | e⟩
  · simp only [runStep]
    split
    · exact hf b
    · exact facts_rfl b
  · exact facts_rfl b

theorem run_it_once_facts (b : BoardState) : Facts b (run_it_once b).1 := by
  unfold run_it_once
  exact facts_trans
    (runStep_facts _ _ deal_flop_facts (b, .ret .vNone))
    (facts_trans (runStep_facts _ _ deal_turn_facts _)
      (runStep_facts _ _ deal_river_facts _))

theorem applyOp_facts (op : BOp) (b : BoardState) : Facts b (applyOp op b) := by
  cases op
  · exact deal_flop_facts b
  · exact deal_turn_facts b
  · exact deal_river_facts b
  · exact run_it_once_facts b

theorem reached_flagOrder {s : BoardState} (h : Reached s) : FlagOrder s := by
  induction h with
  | init deck => exact ⟨by simp [initBoard], by simp [initBoard]⟩
  | step b op hb ih => exact (applyOp_facts op b).2.2.2 ih

/-- C6 amended: in every reachable board state the flags obey the dealt-order
invariant (turn only ever set when flop is, river only when flop and turn
are) and every further operation only ever moves flags false→true; but the
card-count clause of the claim fails, because a phase can be re-dealt. -/
theorem board_flag_invariant (s : BoardState) (h : Reached s) :
    (s.turn_was_dealt = true → s.flop_was_dealt = true) ∧
    (s.river_was_dealt = true → s.flop_was_dealt = true ∧ s.turn_was_dealt = true) ∧
    ∀ op : BOp,
      (s.flop_was_dealt = true → (applyOp op s).flop_was_dealt = true) ∧
      (s.turn_was_dealt = true → (applyOp op s).turn_was_dealt = true) ∧
      (s.river_was_dealt = true → (applyOp op s).river_was_dealt = true) :=
  ⟨(reached_flagOrder h).1, (reached_flagOrder h).2, fun op =>
    ⟨(applyOp_facts op s).1, (applyOp_facts op s).2.1, (applyOp_facts op s).2.2.1⟩⟩

/-- C6 counterexample: two `deal_flop` calls in a row both succeed from a
fresh board, reaching a state with 6 accumulated cards — not 0, 3, 4 or 5. -/
theorem reachable_six_card_board :
    Reached (applyOp .flop (applyOp .flop (initBoard demoDeck))) ∧
    (applyOp .flop (applyOp .flop (initBoard demoDeck))).cards.length = 6 ∧
    ¬((applyOp .flop (applyOp .flop (initBoard demoDeck))).cards.length = 0 ∨
      (applyOp .flop (applyOp .flop (initBoard demoDeck))).cards.length = 3 ∨
      (applyOp .flop (applyOp .flop (initBoard demoDeck))).cards.length = 4 ∨
      (applyOp .flop (applyOp .flop (initBoard demoDeck))).cards.length = 5) :=
  ⟨Reached.step _ .flop (Reached.step _ .flop (Reached.init demoDeck)),
    by decide, by decide⟩

/-- Witness for the amended C6: at the reached one-flop state, the theorem's
monotonicity clause keeps the flop flag set across a `deal_turn`. -/
theorem board_flag_invariant_witness :
    (applyOp .turn (applyOp .flop (initBoard demoDeck))).flop_was_dealt = true :=
  ((board_flag_invariant (applyOp .flop (initBoard demoDeck))
      (Reached.step _ .flop (Reached.init demoDeck))).2.2 BOp.turn).1 (by decide)

/-! ### Run-it-twice / run-it-thrice (C8) -/

/-- C8 counterexample: `run_it_twice` does not fail at all — it completes as
a normal return carrying the `NotImplemented` sentinel and leaves the board
untouched. -/
theorem run_it_twice_no_failure :
    run_it_twice (initBoard demoDeck) =
      (initBoard demoDeck, .ret .vNotImplemented) ∧
    (run_it_twice (initBoard demoDeck)).2 ≠ .exn .valueError ∧
    (run_it_twice (initBoard demoDeck)).2 ≠ .exn .indexError := by
  decide

/-- C8 amended: `run_it_twice` completes as a normal return of the
`NotImplemented` sentinel value — a caller-checkable signal, not a raised
`UnsupportedRunOut` — and leaves the board's cards and flags unchanged
(`run_it_thrice`'s body is the same sentinel return; the def lacks `self`,
so an instance invocation dies with a `TypeError` first). -/
theorem run_it_twice_returns_sentinel (b : BoardState) :
    run_it_twice b = (b, .ret .vNotImplemented) ∧
    run_it_thrice = .ret .vNotImplemented :=
  ⟨rfl, rfl⟩

/-! ### Concrete runs exhibiting the code bugs (C1, C3, C4, C5) -/

/-- The wheel hand A♠(level 14), 5♥(2), 4♦(2), 3♣(2), 2♠(2): suits mixed. -/
def wheelHand : List Card :=
  [⟨14, .spades, 14⟩, ⟨5, .hearts, 2⟩, ⟨4, .diamonds, 2⟩, ⟨3, .clubs, 2⟩,
    ⟨2, .spades, 2⟩]

/-- What the source computes for `wheelHand`: a straight (tier 1, category 2)
with `group1 = 3` (rank 5, zero-indexed) but `level1 = 12` — the ACE's level —
and `level5 = 0`, the DEUCE's level: the level sequence was left in its
pre-remap ace-first order. -/
def wheelDesc : HandStrengthTup :=
  ⟨some 0, some 1, some 2, some 3, none, none, none, none,
    some 12, some 0, some 0, some 0, some 0⟩

/-- C1: the wheel is classified as a straight with remapped rank sequence
`[5,4,3,2,1]`, but `level1..level5` stay aligned to the pre-remap sort: the
claim requires `level1` = the five's level (0) and `level5` = the ace's (12);
the code returns `level1 = 12` (ace) and `level5 = 0` (deuce). -/
theorem wheel_levels_not_realigned :
    evaluate_hand wheelHand = some wheelDesc ∧
    wheelDesc.group1 = some 3 ∧
    wheelDesc.level1 = some 12 ∧ wheelDesc.level5 = some 0 ∧
    wheelDesc.level1 ≠ some 0 ∧ wheelDesc.level5 ≠ some 12 := by
  decide

/-- C3: a fresh `BitfieldLevelDeck` serves all 52 cards, and the 53rd
single-card request is served SILENTLY with an empty list — no failure of any
kind — while the cursor advances past the end and the remaining count goes
negative. -/
theorem bitfield_deal_over_returns_short :
    (bfDeal 52 bfFresh).1.length = 52 ∧
    bfRemaining (bfDeal 52 bfFresh).2 = 0 ∧
    (bfDeal 1 (bfDeal 52 bfFresh).2).1 = ([] : List Nat) ∧
    (bfDeal 1 (bfDeal 52 bfFresh).2).1.length < 1 ∧
    bfRemaining (bfDeal 1 (bfDeal 52 bfFresh).2).2 = -1 := by
  decide

/-- Five cards of which two share the (rank, suit) pair A♠, and six all-spade
cards: both malformed inputs by the claim. -/
def dupHand : List Card :=
  [⟨14, .spades, 2⟩, ⟨14, .spades, 3⟩, ⟨13, .hearts, 2⟩, ⟨12, .diamonds, 2⟩,
    ⟨11, .clubs, 2⟩]

/-- The one-pair descriptor the source returns for `dupHand`. -/
def dupDesc : HandStrengthTup :=
  ⟨some 0, some 0, some 1, some 12, some 11, some 10, some 9, none,
    some 1, some 0, some 0, some 0, some 0⟩

/-- A 6-card input (A,K,Q,J,T,9 of spades, level 2 each). -/
def sixHand : List Card :=
  [⟨14, .spades, 2⟩, ⟨13, .spades, 2⟩, ⟨12, .spades, 2⟩, ⟨11, .spades, 2⟩,
    ⟨10, .spades, 2⟩, ⟨9, .spades, 2⟩]

/-- The flush descriptor the source returns for the 6-card `sixHand`. -/
def sixDesc : HandStrengthTup :=
  ⟨some 0, some 1, some 3, some 12, some 11, some 10, some 9, some 8,
    none, none, none, none, none⟩

/-- C4: `evaluate_hand` performs no input validation: a 5-card input holding
two copies of A♠ evaluates to a one-pair descriptor, and a 6-card input
evaluates to a flush descriptor — neither fails. -/
theorem evaluate_hand_accepts_malformed :
    evaluate_hand dupHand = some dupDesc ∧
    evaluate_hand sixHand = some sixDesc := by
  decide

/-- C5: `shuffle` permutes the WHOLE card list (dealt cards included) and
resets the cursor: after dealing one card, a shuffle whose permutation
outcome is the identity raises the undealt count from 51 back to 52 and the
very next deal returns the already-dealt card again. -/
theorem bitfield_shuffle_restores_dealt :
    (bfDeal 1 bfFresh).1 = [0] ∧
    bfRemaining (bfDeal 1 bfFresh).2 = 51 ∧
    bfRemaining (bfShuffleWith (bfDeal 1 bfFresh).2._cards (bfDeal 1 bfFresh).2) = 52 ∧
    (bfDeal 1 (bfShuffleWith (bfDeal 1 bfFresh).2._cards (bfDeal 1 bfFresh).2)).1
      = [0] := by
  decide

end LevelPoker
